import Mathlib

/-!
Verification of the vocabulary-learning application (question synthesis,
distractor selection, session/result processing, persistence contracts).

The Python source is shallowly embedded: pandas dataframes become lists of
records, SQLite tables become lists of row structures, `random`-module calls
become explicit oracle parameters constrained to behave like genuine samples
or shuffles, floats become rationals, and code that can raise becomes
`Option`/`Except`-valued.
-/

namespace LVeige

/-! ### Python string primitives

`lowerStr`, `upperStr`, `trimStr` model Python's `str.lower()`, `str.upper()`
and `str.strip()`.  They are written directly over the character list of the
string so that they evaluate inside the kernel. -/

def lowerStr (s : String) : String := ⟨s.data.map Char.toLower⟩

def upperStr (s : String) : String := ⟨s.data.map Char.toUpper⟩

def trimStr (s : String) : String :=
  ⟨((s.data.dropWhile Char.isWhitespace).reverse.dropWhile Char.isWhitespace).reverse⟩

/-- Python's `Levenshtein.distance(a, b)` (unit-cost edit distance). -/
def levDist (a b : String) : ℕ :=
  levenshtein Levenshtein.defaultCost a.data b.data

/-! ### A stable sort

Python's `list.sort(key=...)` is stable; the SQLite `ORDER BY` on the
distinct `choice_order` column is order-deterministic.  Both are modelled by
a structural insertion sort, which is stable and evaluates in the kernel. -/

def insertSorted {α : Type} (le : α → α → Bool) (a : α) : List α → List α
  | [] => [a]
  | b :: l => if le a b then a :: b :: l else b :: insertSorted le a l

def stableSort {α : Type} (le : α → α → Bool) : List α → List α
  | [] => []
  | a :: l => insertSorted le a (stableSort le l)

theorem insertSorted_perm {α : Type} (le : α → α → Bool) (a : α) (l : List α) :
    List.Perm (insertSorted le a l) (a :: l) := by
  induction l with
  | nil => simp [insertSorted]
  | cons b t ih =>
    simp only [insertSorted]
    split
    · exact List.Perm.refl _
    · exact (List.Perm.cons b ih).trans (List.Perm.swap a b t)

theorem stableSort_perm {α : Type} (le : α → α → Bool) (l : List α) :
    List.Perm (stableSort le l) l := by
  induction l with
  | nil => simp [stableSort]
  | cons a t ih =>
    exact (insertSorted_perm le a (stableSort le t)).trans (ih.cons a)

theorem stableSort_length {α : Type} (le : α → α → Bool) (l : List α) :
    (stableSort le l).length = l.length :=
  (stableSort_perm le l).length_eq

theorem stableSort_nodup {α : Type} (le : α → α → Bool) {l : List α}
    (h : l.Nodup) : (stableSort le l).Nodup :=
  ((stableSort_perm le l).nodup_iff).mpr h

theorem mem_stableSort {α : Type} (le : α → α → Bool) {a : α} {l : List α} :
    a ∈ stableSort le l ↔ a ∈ l :=
  (stableSort_perm le l).mem_iff

theorem insertSorted_eq_cons {α : Type} (le : α → α → Bool) (a : α) (l : List α)
    (h : ∀ b ∈ l, le a b = true) : insertSorted le a l = a :: l := by
  cases l with
  | nil => rfl
  | cons b t => simp [insertSorted, h b (by simp)]

/-- A sorted list is a fixed point of `stableSort`. -/
theorem stableSort_eq_self {α : Type} (le : α → α → Bool) (l : List α)
    (h : l.Pairwise (fun a b => le a b = true)) : stableSort le l = l := by
  induction l with
  | nil => rfl
  | cons a t ih =>
    rcases List.pairwise_cons.mp h with ⟨ha, ht⟩
    simp only [stableSort, ih ht]
    exact insertSorted_eq_cons le a t ha

/-! ### First-occurrence deduplication

`pandas.Series.drop_duplicates()` keeps the first occurrence of each value;
`list(set(...))` keeps one occurrence of each value in an unspecified order,
modelled here as first-occurrence order. -/

def dedupFirstAux {α : Type} [DecidableEq α] (seen : List α) : List α → List α
  | [] => []
  | a :: l => if a ∈ seen then dedupFirstAux seen l else a :: dedupFirstAux (a :: seen) l

def dedupFirst {α : Type} [DecidableEq α] (l : List α) : List α :=
  dedupFirstAux [] l

theorem mem_dedupFirstAux {α : Type} [DecidableEq α] {x : α} :
    ∀ (l seen : List α), x ∈ dedupFirstAux seen l ↔ x ∈ l ∧ x ∉ seen := by
  intro l
  induction l with
  | nil => intro seen; simp [dedupFirstAux]
  | cons a t ih =>
    intro seen
    by_cases ha : a ∈ seen
    · simp only [dedupFirstAux, if_pos ha, ih, List.mem_cons]
      by_cases hxa : x = a
      · subst hxa; tauto
      · tauto
    · simp only [dedupFirstAux, if_neg ha, List.mem_cons, ih]
      by_cases hxa : x = a
      · subst hxa; tauto
      · tauto

theorem nodup_dedupFirstAux {α : Type} [DecidableEq α] :
    ∀ (l seen : List α), (dedupFirstAux seen l).Nodup := by
  intro l
  induction l with
  | nil => intro seen; simp [dedupFirstAux]
  | cons a t ih =>
    intro seen
    by_cases ha : a ∈ seen
    · simpa [dedupFirstAux, if_pos ha] using ih seen
    · simp only [dedupFirstAux, if_neg ha, List.nodup_cons]
      refine ⟨fun hc => ?_, ih (a :: seen)⟩
      exact ((mem_dedupFirstAux t (a :: seen)).mp hc).2 (List.mem_cons_self a seen)

theorem dedupFirst_nodup {α : Type} [DecidableEq α] (l : List α) :
    (dedupFirst l).Nodup :=
  nodup_dedupFirstAux l []

theorem mem_dedupFirst {α : Type} [DecidableEq α] {x : α} {l : List α} :
    x ∈ dedupFirst l ↔ x ∈ l := by
  simp [dedupFirst, mem_dedupFirstAux]

/-! ### Distractor scoring
Embedding of `EnhancedCandidateGenerator._calculate_distractor_score`
(`modules/enhanced_candidate_gen.py`, lines 322-361).  Floats are modelled as
rationals; `self.similarity_weight` is the constant `0.7` set in `__init__`. -/

def similarityWeight : ℚ := 7/10

/-- The `similarity_score` local value of `_calculate_distractor_score`:
Levenshtein distance of the lowercased words, normalized by the longer
length, scored piecewise (peak 1.0 on [0.3, 0.7]). -/
def similarityScoreSrc (target candidate : String) : ℚ :=
  let distance := levDist (lowerStr target) (lowerStr candidate)
  let maxLen := max target.length candidate.length
  if maxLen = 0 then 0
  else
    let normalizedDistance : ℚ := (distance : ℚ) / (maxLen : ℚ)
    if 3/10 ≤ normalizedDistance ∧ normalizedDistance ≤ 7/10 then 1
    else if normalizedDistance < 3/10 then normalizedDistance / (3/10)
    else max 0 (1 - (normalizedDistance - 7/10) / (3/10))

/-- The `length_score` local value of `_calculate_distractor_score`.  In the
source the division is unguarded; `calculateDistractorScore` below accounts
for the `ZeroDivisionError` raised when both words are empty. -/
def lengthScoreSrc (target candidate : String) : ℚ :=
  max 0 (1 - (Nat.dist target.length candidate.length : ℚ) /
    (max target.length candidate.length : ℚ))

/-- `_calculate_distractor_score(target, candidate)`.  `none` models the
`ZeroDivisionError` raised by the `length_score` division when both words
are empty (the `similarity_score` branch alone guards `max_len == 0`). -/
def calculateDistractorScore (target candidate : String) : Option ℚ :=
  if max target.length candidate.length = 0 then none
  else some (similarityWeight * similarityScoreSrc target candidate +
    (1 - similarityWeight) * lengthScoreSrc target candidate)

/-! Spec-side scoring definitions, written from the wording of the
specification (spec.md §4.2 step 4) for comparison against the source
embedding above. -/

/-- Modelled from the spec: "normalized edit distance (distance /
max(len(target), len(candidate)))". -/
def specNormalizedDistance (target candidate : String) : ℚ :=
  (levDist (lowerStr target) (lowerStr candidate) : ℚ) /
    (max target.length candidate.length : ℚ)

/-- Modelled from the spec: "similarity_score peaks at 1.0 when normalized
edit distance falls in [0.3, 0.7], scales linearly down to 0 as distance→0
below 0.3, and scales linearly down to 0 as distance→1 above 0.7". -/
def specSimilarityScore (target candidate : String) : ℚ :=
  let nd := specNormalizedDistance target candidate
  if 3/10 ≤ nd ∧ nd ≤ 7/10 then 1
  else if nd < 3/10 then nd / (3/10)
  else max 0 (1 - (nd - 7/10) / (3/10))

/-- Modelled from the spec: "length_score = max(0, 1 - |len(target)-len(candidate)|
/ max(len(target), len(candidate)))". -/
def specLengthScore (target candidate : String) : ℚ :=
  max 0 (1 - (Nat.dist target.length candidate.length : ℚ) /
    (max target.length candidate.length : ℚ))

/-- Modelled from the spec: "score = 0.7 * similarity_score + 0.3 * length_score". -/
def specDistractorScore (target candidate : String) : ℚ :=
  7/10 * specSimilarityScore target candidate + 3/10 * specLengthScore target candidate

/-- C4: the score computed by `_calculate_distractor_score` equals the spec's
formula `0.7 * similarity_score + 0.3 * length_score` with the piecewise
similarity score and the length-ratio score, whenever at least one of the two
words is nonempty (so the computation is defined); moreover for target "cat"
and candidate "cats" the normalized distance is 1/4 and the similarity score
is strictly less than the score at normalized distance exactly 1/2
(witnessed by candidate "city"), which is 1.0. -/
theorem distractor_score_matches_spec :
    (∀ target candidate : String, 0 < max target.length candidate.length →
      calculateDistractorScore target candidate =
        some (specDistractorScore target candidate)) ∧
    specNormalizedDistance "cat" "cats" = 1/4 ∧
    specNormalizedDistance "cat" "city" = 1/2 ∧
    similarityScoreSrc "cat" "city" = 1 ∧
    similarityScoreSrc "cat" "cats" < similarityScoreSrc "cat" "city" := by
  refine ⟨?_, ?_, ?_, ?_, ?_⟩
  · intro t c h
    have hne : max t.length c.length ≠ 0 := Nat.pos_iff_ne_zero.mp h
    simp only [calculateDistractorScore, if_neg hne]
    congr 1
    simp only [specDistractorScore, similarityScoreSrc, specSimilarityScore,
      specNormalizedDistance, lengthScoreSrc, specLengthScore, similarityWeight,
      if_neg hne]
    norm_num
  · have h1 : levDist (lowerStr "cat") (lowerStr "cats") = 1 := by decide
    have hc : "cat".length = 3 := by decide
    have hcs : "cats".length = 4 := by decide
    simp only [specNormalizedDistance, h1, hc, hcs]
    norm_num [max_def]
  · have h1 : levDist (lowerStr "cat") (lowerStr "city") = 2 := by decide
    have hc : "cat".length = 3 := by decide
    have hci : "city".length = 4 := by decide
    simp only [specNormalizedDistance, h1, hc, hci]
    norm_num [max_def]
  · have h1 : levDist (lowerStr "cat") (lowerStr "city") = 2 := by decide
    have h2 : max "cat".length "city".length = 4 := by decide
    simp only [similarityScoreSrc, h1, h2]
    norm_num
  · have h1 : levDist (lowerStr "cat") (lowerStr "cats") = 1 := by decide
    have h2 : max "cat".length "cats".length = 4 := by decide
    have h3 : levDist (lowerStr "cat") (lowerStr "city") = 2 := by decide
    have h4 : max "cat".length "city".length = 4 := by decide
    simp only [similarityScoreSrc, h1, h2, h3, h4]
    norm_num

/-- Witness for C4 at the concrete input target "cat", candidate "dog". -/
theorem distractor_score_matches_spec_witness :
    0 < max "cat".length "dog".length ∧
    calculateDistractorScore "cat" "dog" = some (specDistractorScore "cat" "dog") :=
  ⟨by decide, distractor_score_matches_spec.1 "cat" "dog" (by decide)⟩

/-! ### Question synthesis
Embedding of `EnhancedQuestionGenerator._process_caption_with_spacy`
(`modules/enhanced_question_gen.py`, lines 251-312).  The external spaCy
parser is abstracted as its output: a list of (surface text, lemma, POS tag)
tokens for the caption. -/

/-- One spaCy token of the parsed caption: surface form, lemma, POS tag. -/
structure SpacyToken where
  text : String
  lemmaForm : String
  posTag : String
deriving DecidableEq

/-- The generated question payload (the `question_data` dict built at lines
296-306 of `enhanced_question_gen.py`). -/
structure GenQuestion where
  imageId : String
  captionId : String
  caption : String
  divided : List String
  blankquestion : List String
  answer : String
  lemmaWord : String
  pos : String
  cefr : String
deriving DecidableEq

/-- Python truthiness of an optional string: `None` and `""` are falsy. -/
def falsyStr (s : Option String) : Bool := s.getD "" == ""

/-- The match test of the blanking loop:
`token.lemma_.lower() == target_word.lower()`. -/
def isTargetMatch (targetWord : String) (t : SpacyToken) : Bool :=
  lowerStr t.lemmaForm == lowerStr targetWord

/-- `_process_caption_with_spacy(caption, target_word, cap_id, img_id,
pos_filter, cefr_filter)` with the parsed `doc` supplied as input.
The Python loop appends `"()"` for every matching token and reassigns
`answer_word = token.text` at every match, so the final `answer_word` is the
surface form of the LAST matching token; the trailing
`if not answer_word: return None` also fires when that surface form is the
empty string. -/
def processCaptionWithSpacy (doc : List SpacyToken) (caption targetWord capId imgId
    posFilter cefrFilter : String) : Option GenQuestion :=
  let divided := doc.map (fun t => if t.posTag != "ADV" then t.lemmaForm else t.text)
  let blankedTokens := doc.map (fun t => if isTargetMatch targetWord t then "()" else t.text)
  let answerWord := ((doc.filter (isTargetMatch targetWord)).getLast?).map (·.text)
  if falsyStr answerWord then none
  else some {
    imageId := imgId
    captionId := capId
    caption := caption
    divided := divided
    blankquestion := blankedTokens
    answer := answerWord.getD ""
    lemmaWord := targetWord
    pos := lowerStr posFilter
    cefr := upperStr cefrFilter }

/-- The placeholder substitution of
`ResultProcessor._generate_completed_sentence` (`modules/result_processor.py`,
lines 169-174): every token equal to `"()"` is replaced by the answer. -/
def substituteBlanks (blankQuestion : List String) (answer : String) : List String :=
  blankQuestion.map (fun t => if t == "()" then answer else t)

theorem mem_of_getLast_opt {α : Type} {l : List α} {a : α}
    (h : l.getLast? = some a) : a ∈ l := by
  induction l with
  | nil => cases h
  | cons b t ih =>
    cases t with
    | nil =>
      simp only [List.getLast?_singleton, Option.some.injEq] at h
      simp [h]
    | cons c u =>
      rw [List.getLast?_cons_cons] at h
      exact List.mem_cons_of_mem b (ih h)

/-- Characterization of a successful `_process_caption_with_spacy` run: the
stored answer is the surface form of the last matching token, the blanked
tokens replace exactly the matching positions, and the remaining fields are
copied through. -/
theorem processCaption_elim {doc : List SpacyToken}
    {caption targetWord capId imgId posFilter cefrFilter : String} {q : GenQuestion}
    (h : processCaptionWithSpacy doc caption targetWord capId imgId posFilter
      cefrFilter = some q) :
    (∃ t, (doc.filter (isTargetMatch targetWord)).getLast? = some t ∧
      q.answer = t.text) ∧
    q.blankquestion = doc.map (fun t => if isTargetMatch targetWord t then "()" else t.text) ∧
    q.divided = doc.map (fun t => if t.posTag != "ADV" then t.lemmaForm else t.text) ∧
    q.lemmaWord = targetWord ∧ q.pos = lowerStr posFilter ∧
    q.cefr = upperStr cefrFilter ∧ q.caption = caption := by
  simp only [processCaptionWithSpacy] at h
  by_cases hf : falsyStr (((doc.filter (isTargetMatch targetWord)).getLast?).map
      (fun t => t.text)) = true
  · rw [if_pos hf] at h; cases h
  · rw [if_neg hf] at h
    have hq := Option.some.inj h
    subst hq
    refine ⟨?_, rfl, rfl, rfl, rfl, rfl, rfl⟩
    cases hlast : (doc.filter (isTargetMatch targetWord)).getLast? with
    | none =>
      exfalso
      apply hf
      simp [falsyStr, hlast]
    | some t =>
      exact ⟨t, rfl, by simp [hlast]⟩

/-- C3 counterexample data: a caption whose target lemma "run" matches two
tokens with different surface forms. -/
def multiMatchDoc : List SpacyToken :=
  [⟨"Running", "run", "VERB"⟩, ⟨"ran", "run", "VERB"⟩]

/-- C3: the claim says the stored answer is the surface form of the FIRST
matching token; on this input the source stores the surface form of the LAST
matching token ("ran", not "Running"), because the loop reassigns
`answer_word` on every match. -/
theorem answer_is_first_match_counterexample :
    (processCaptionWithSpacy multiMatchDoc "Running man ran" "run" "1" "2" "verb"
      "A1").map (fun q => q.answer) = some "ran" ∧
    (multiMatchDoc.filter (isTargetMatch "run")).head?.map (fun t => t.text) =
      some "Running" ∧
    ("ran" : String) ≠ "Running" := by
  refine ⟨?_, ?_, ?_⟩ <;> decide

/-- C3 (amended): on every successfully processed caption the stored answer
is the surface form of the LAST matching token (not the first), every
matching position is replaced by the placeholder in `blanked_tokens`, and
every non-matching position keeps its surface form. -/
theorem answer_is_last_match (doc : List SpacyToken)
    (caption targetWord capId imgId posFilter cefrFilter : String) (q : GenQuestion)
    (h : processCaptionWithSpacy doc caption targetWord capId imgId posFilter
      cefrFilter = some q) :
    (∃ t, (doc.filter (isTargetMatch targetWord)).getLast? = some t ∧
      q.answer = t.text) ∧
    q.blankquestion = doc.map
      (fun t => if isTargetMatch targetWord t then "()" else t.text) :=
  ⟨(processCaption_elim h).1, (processCaption_elim h).2.1⟩

/-- Witness data for the amended C3/C2 theorems: a simple two-token caption
with a unique match. -/
def simpleDoc : List SpacyToken :=
  [⟨"A", "a", "DET"⟩, ⟨"cat", "cat", "NOUN"⟩]

/-- The question generated from `simpleDoc` for target "cat". -/
def simpleQ : GenQuestion :=
  { imageId := "2", captionId := "1", caption := "A cat",
    divided := ["a", "cat"], blankquestion := ["A", "()"],
    answer := "cat", lemmaWord := "cat", pos := "noun", cefr := "A1" }

/-- Witness for the amended C3 theorem at concrete input `simpleDoc`. -/
theorem answer_is_last_match_witness :
    (∃ t, (simpleDoc.filter (isTargetMatch "cat")).getLast? = some t ∧
      simpleQ.answer = t.text) ∧
    simpleQ.blankquestion = simpleDoc.map
      (fun t => if isTargetMatch "cat" t then "()" else t.text) :=
  answer_is_last_match simpleDoc "A cat" "cat" "1" "2" "noun" "A1" simpleQ (by decide)

/-- C2 counterexample: with two matches of different surface forms the
blanked tokens are `["()", "()"]` and substituting the stored answer "ran"
back yields `["ran", "ran"]`, which differs from the original token sequence
`["Running", "ran"]`. -/
theorem substitution_roundtrip_counterexample :
    (processCaptionWithSpacy multiMatchDoc "Running man ran" "run" "1" "2" "verb"
      "A1").map (fun q => substituteBlanks q.blankquestion q.answer) =
      some ["ran", "ran"] ∧
    multiMatchDoc.map (fun t => t.text) = ["Running", "ran"] ∧
    (["ran", "ran"] : List String) ≠ ["Running", "ran"] := by
  refine ⟨?_, ?_, ?_⟩ <;> decide

/-- C2 (amended): every generated question has at least one placeholder in
`blanked_tokens`; and whenever every matching token carries the stored
answer as its surface form and no non-matching token's surface form is the
placeholder string itself, substituting the stored answer back reproduces
the original caption's token sequence exactly. -/
theorem substitution_reproduces_caption (doc : List SpacyToken)
    (caption targetWord capId imgId posFilter cefrFilter : String) (q : GenQuestion)
    (h : processCaptionWithSpacy doc caption targetWord capId imgId posFilter
      cefrFilter = some q)
    (hsurf : ∀ t ∈ doc, isTargetMatch targetWord t = true → t.text = q.answer)
    (hplc : ∀ t ∈ doc, isTargetMatch targetWord t = false → t.text ≠ "()") :
    "()" ∈ q.blankquestion ∧
    substituteBlanks q.blankquestion q.answer = doc.map (fun t => t.text) := by
  obtain ⟨⟨t0, hlast, _⟩, hbq, _⟩ := processCaption_elim h
  have ht0f : t0 ∈ doc.filter (isTargetMatch targetWord) := mem_of_getLast_opt hlast
  have ht0 : t0 ∈ doc ∧ isTargetMatch targetWord t0 = true := by
    simpa using List.mem_filter.mp ht0f
  constructor
  · rw [hbq]
    exact List.mem_map.mpr ⟨t0, ht0.1, by simp [ht0.2]⟩
  · rw [hbq, substituteBlanks, List.map_map]
    apply List.map_congr_left
    intro t ht
    by_cases hm : isTargetMatch targetWord t = true
    · simp [Function.comp_apply, hm, hsurf t ht hm]
    · have hm' : isTargetMatch targetWord t = false := by
        cases hx : isTargetMatch targetWord t
        · rfl
        · exact absurd hx hm
      simp [Function.comp_apply, hm', hplc t ht hm']

/-- Witness for the amended C2 theorem at concrete input `simpleDoc`. -/
theorem substitution_reproduces_caption_witness :
    "()" ∈ simpleQ.blankquestion ∧
    substituteBlanks simpleQ.blankquestion simpleQ.answer =
      simpleDoc.map (fun t => t.text) :=
  substitution_reproduces_caption simpleDoc "A cat" "cat" "1" "2" "noun" "A1"
    simpleQ (by decide) (by decide) (by decide)

/-! ### Learning sessions
Embedding of the `learning_sessions` row and the session operations of
`database/db_manager.py` (lines 564-594) and
`ResultProcessor.check_session_completion` (`modules/result_processor.py`,
lines 282-302). -/

/-- A row of the `learning_sessions` table. -/
structure SessionRow where
  sessionId : String
  userId : ℕ
  mode : String
  posFilter : String
  cefrFilter : String
  totalQuestions : ℕ
  currentQuestion : ℕ
  isCompleted : Bool
deriving DecidableEq

/-- `DatabaseManager.update_session_progress`: `current_question` is
incremented by one. -/
def updateSessionProgress (s : SessionRow) : SessionRow :=
  { s with currentQuestion := s.currentQuestion + 1 }

/-- `DatabaseManager.complete_session`: `is_completed` is set to TRUE. -/
def completeSession (s : SessionRow) : SessionRow :=
  { s with isCompleted := true }

/-- `ResultProcessor.check_session_completion`: when
`current_question >= total_questions` the session is marked completed and
TRUE is returned, otherwise the stored `is_completed` flag is returned. -/
def checkSessionCompletion (s : SessionRow) : SessionRow × Bool :=
  if s.totalQuestions ≤ s.currentQuestion then (completeSession s, true)
  else (s, s.isCompleted)

/-- The session-state effect of the core operations.  `processAnswer` is the
session effect of `ResultProcessor.process_user_answer`, whose only write to
the session row is the `update_session_progress` call at line 73. -/
inductive SessionOp
  | processAnswer
  | updateProgress
  | complete
  | checkCompletion
deriving DecidableEq

def applySessionOp (s : SessionRow) : SessionOp → SessionRow
  | SessionOp.processAnswer => updateSessionProgress s
  | SessionOp.updateProgress => updateSessionProgress s
  | SessionOp.complete => completeSession s
  | SessionOp.checkCompletion => (checkSessionCompletion s).1

def applySessionOps (s : SessionRow) (ops : List SessionOp) : SessionRow :=
  ops.foldl applySessionOp s

theorem applySessionOp_mono (s : SessionRow) (op : SessionOp) :
    s.currentQuestion ≤ (applySessionOp s op).currentQuestion ∧
    (s.isCompleted = true → (applySessionOp s op).isCompleted = true) := by
  cases op with
  | processAnswer => exact ⟨Nat.le_succ _, fun h => h⟩
  | updateProgress => exact ⟨Nat.le_succ _, fun h => h⟩
  | complete => exact ⟨le_refl _, fun _ => rfl⟩
  | checkCompletion =>
    simp only [applySessionOp, checkSessionCompletion]
    split
    · exact ⟨le_refl _, fun _ => rfl⟩
    · exact ⟨le_refl _, fun h => h⟩

/-- C5: over any sequence of core session operations, `current_question`
never decreases and `is_completed` never transitions from true back to
false; and a single processed answer increments `current_question` by
exactly one. -/
theorem session_progress_monotone :
    (∀ (ops : List SessionOp) (s : SessionRow),
      s.currentQuestion ≤ (applySessionOps s ops).currentQuestion ∧
      (s.isCompleted = true → (applySessionOps s ops).isCompleted = true)) ∧
    (∀ s : SessionRow,
      (applySessionOp s SessionOp.processAnswer).currentQuestion =
        s.currentQuestion + 1) := by
  constructor
  · intro ops
    induction ops with
    | nil => intro s; exact ⟨le_refl _, fun h => h⟩
    | cons op rest ih =>
      intro s
      have h1 := applySessionOp_mono s op
      have h2 := ih (applySessionOp s op)
      exact ⟨le_trans h1.1 h2.1, fun h => h2.2 (h1.2 h)⟩
  · intro s; rfl

/-- A concrete already-completed session used by the C5 witness. -/
def witnessSession : SessionRow :=
  { sessionId := "s1", userId := 1, mode := "learning", posFilter := "noun",
    cefrFilter := "A1", totalQuestions := 2, currentQuestion := 2,
    isCompleted := true }

/-- A concrete operation sequence used by the C5 witness. -/
def witnessOps : List SessionOp :=
  [SessionOp.processAnswer, SessionOp.checkCompletion,
    SessionOp.updateProgress, SessionOp.complete]

/-- Witness for C5 at a concrete session and operation sequence, discharging
the stickiness hypothesis `is_completed = true` there. -/
theorem session_progress_monotone_witness :
    witnessSession.currentQuestion ≤
      (applySessionOps witnessSession witnessOps).currentQuestion ∧
    (applySessionOps witnessSession witnessOps).isCompleted = true :=
  ⟨(session_progress_monotone.1 witnessOps witnessSession).1,
   (session_progress_monotone.1 witnessOps witnessSession).2 (by decide)⟩

/-! ### The questions table and natural-key reuse
Embedding of the `questions` table (`UNIQUE(lemma, pos, cefr)`),
`DatabaseManager.save_question` (`database/db_manager.py`, lines 195-236),
`EnhancedQuestionGenerator._check_existing_question`
(`modules/enhanced_question_gen.py`, lines 225-249), and the qid-resolution
branch of `get_or_generate_question` (lines 117-136; the choice handling on
those lines belongs to the candidate generator, modelled separately). -/

/-- A row of the `questions` table. -/
structure QuestionRow where
  qid : ℕ
  imageId : String
  captionId : String
  caption : String
  lemmaWord : String
  pos : String
  cefr : String
  answer : String
  blankQuestion : List String
  divided : List String
deriving DecidableEq

/-- The `questions` table with its AUTOINCREMENT counter. -/
structure QuestionsTable where
  rows : List QuestionRow
  nextQid : ℕ
deriving DecidableEq

/-- The `UNIQUE(lemma, pos, cefr)` natural key comparison. -/
def questionKeyMatches (lemmaWord pos cefr : String) (r : QuestionRow) : Bool :=
  r.lemmaWord == lemmaWord && r.pos == pos && r.cefr == cefr

/-- `DatabaseManager.save_question`: INSERT the row; on an IntegrityError
(duplicate natural key) SELECT the existing row's qid back and return it
instead of failing. -/
def saveQuestion (t : QuestionsTable) (g : GenQuestion) : Option ℕ × QuestionsTable :=
  if t.rows.any (questionKeyMatches g.lemmaWord g.pos g.cefr) then
    ((t.rows.find? (questionKeyMatches g.lemmaWord g.pos g.cefr)).map (fun r => r.qid), t)
  else
    (some t.nextQid,
     { rows := t.rows ++
        [{ qid := t.nextQid, imageId := g.imageId, captionId := g.captionId,
           caption := g.caption, lemmaWord := g.lemmaWord, pos := g.pos,
           cefr := g.cefr, answer := g.answer, blankQuestion := g.blankquestion,
           divided := g.divided }],
       nextQid := t.nextQid + 1 })

/-- `EnhancedQuestionGenerator._check_existing_question`: SELECT qid by the
natural key, with `pos` lowercased and `cefr` uppercased; `None` when any
key field is falsy. -/
def checkExistingQuestion (t : QuestionsTable) (g : GenQuestion) : Option ℕ :=
  if g.lemmaWord == "" || g.pos == "" || g.cefr == "" then none
  else (t.rows.find? (questionKeyMatches g.lemmaWord (lowerStr g.pos)
    (upperStr g.cefr))).map (fun r => r.qid)

/-- The qid-resolution branch of `get_or_generate_question`: when a row with
the generated question's natural key exists its qid is reused and nothing is
written; otherwise `save_question` persists a new row. -/
def resolveQuestionId (t : QuestionsTable) (g : GenQuestion) : Option ℕ × QuestionsTable :=
  match checkExistingQuestion t g with
  | some qid => (some qid, t)
  | none => saveQuestion t g

/-- At most one row per natural key (the `UNIQUE(lemma, pos, cefr)`
constraint maintained by SQLite). -/
def KeyUnique (t : QuestionsTable) : Prop :=
  ∀ r₁, r₁ ∈ t.rows → ∀ r₂, r₂ ∈ t.rows →
    r₁.lemmaWord = r₂.lemmaWord → r₁.pos = r₂.pos → r₁.cefr = r₂.cefr → r₁ = r₂

theorem find_key_unique {t : QuestionsTable} {r : QuestionRow}
    (hu : KeyUnique t) (hr : r ∈ t.rows) :
    t.rows.find? (questionKeyMatches r.lemmaWord r.pos r.cefr) = some r := by
  cases hfind : t.rows.find? (questionKeyMatches r.lemmaWord r.pos r.cefr) with
  | none =>
    exfalso
    have := List.find?_eq_none.mp hfind r hr
    simp [questionKeyMatches] at this
  | some r₀ =>
    have hmem := List.mem_of_find?_eq_some hfind
    have hkey := List.find?_some hfind
    simp only [questionKeyMatches, Bool.and_eq_true, beq_iff_eq] at hkey
    have : r₀ = r := hu r₀ hmem r hr hkey.1.1 hkey.1.2 hkey.2
    rw [this]

/-- C6: when a row with the generated question's (lemma, pos, cefr) natural
key already exists, both the generator's reuse check and a direct
`save_question` insert return that existing row's qid and leave the table
unchanged (no duplicate row, no hard failure). -/
theorem question_natural_key_reuse (t : QuestionsTable) (g : GenQuestion)
    (r : QuestionRow) (hu : KeyUnique t) (hr : r ∈ t.rows)
    (hl : r.lemmaWord = g.lemmaWord) (hp : r.pos = g.pos) (hc : r.cefr = g.cefr)
    (hpl : lowerStr g.pos = g.pos) (hcu : upperStr g.cefr = g.cefr)
    (hlne : g.lemmaWord ≠ "") (hpne : g.pos ≠ "") (hcne : g.cefr ≠ "") :
    resolveQuestionId t g = (some r.qid, t) ∧
    saveQuestion t g = (some r.qid, t) := by
  have hfind : t.rows.find? (questionKeyMatches g.lemmaWord g.pos g.cefr) = some r := by
    have := find_key_unique hu hr
    rw [hl, hp, hc] at this
    exact this
  have hany : t.rows.any (questionKeyMatches g.lemmaWord g.pos g.cefr) = true := by
    refine List.any_eq_true.mpr ⟨r, hr, ?_⟩
    simp [questionKeyMatches, hl, hp, hc]
  have hsave : saveQuestion t g = (some r.qid, t) := by
    simp [saveQuestion, hany, hfind]
  refine ⟨?_, hsave⟩
  have hcheck : checkExistingQuestion t g = some r.qid := by
    have hguard : (g.lemmaWord == "" || g.pos == "" || g.cefr == "") = false := by
      simp [hlne, hpne, hcne]
    simp [checkExistingQuestion, hguard, hpl, hcu, hfind]
  simp [resolveQuestionId, hcheck]

/-- A concrete one-row table used by the C6 witness. -/
def witnessQuestionRow : QuestionRow :=
  { qid := 7, imageId := "2", captionId := "1", caption := "A cat",
    lemmaWord := "cat", pos := "noun", cefr := "A1", answer := "cat",
    blankQuestion := ["A", "()"], divided := ["a", "cat"] }

def witnessQuestionsTable : QuestionsTable :=
  { rows := [witnessQuestionRow], nextQid := 8 }

/-- Witness for C6: regenerating `simpleQ` against a table already holding
its natural key returns qid 7 and leaves the table unchanged. -/
theorem question_natural_key_reuse_witness :
    resolveQuestionId witnessQuestionsTable simpleQ =
      (some witnessQuestionRow.qid, witnessQuestionsTable) ∧
    saveQuestion witnessQuestionsTable simpleQ =
      (some witnessQuestionRow.qid, witnessQuestionsTable) :=
  question_natural_key_reuse witnessQuestionsTable simpleQ witnessQuestionRow
    (by intro r₁ h₁ r₂ h₂ _ _ _
        simp only [witnessQuestionsTable, List.mem_singleton] at h₁ h₂
        rw [h₁, h₂])
    (by decide) (by decide) (by decide) (by decide) (by decide) (by decide)
    (by decide) (by decide) (by decide)

/-! ### Answer processing
Embedding of `ResultProcessor` (`modules/result_processor.py`).  The
external image generator is abstracted as its outcome: `Except.error ()`
models an exception raised inside `get_or_generate_wrong_image` (caught at
lines 126-132), `Except.ok p` a normal return of path `p`. -/

/-- Boolean test that the first list starts the second one. -/
def startsWithList {α : Type} [DecidableEq α] : List α → List α → Bool
  | [], _ => true
  | _ :: _, [] => false
  | a :: as, b :: bs => decide (a = b) && startsWithList as bs

/-- Boolean test that the first list occurs contiguously inside the second
one; models Python's substring operator `in` on strings. -/
def containsList {α : Type} [DecidableEq α] (needle : List α) : List α → Bool
  | [] => startsWithList needle []
  | b :: rest => startsWithList needle (b :: rest) || containsList needle rest

/-- `ResultProcessor._join_tokens_to_sentence`, lines 180-206.  Python's
`token in ".,!?;:"` is a substring test; the apostrophe tests inspect the
first character of the token and the last character of the previous token. -/
def joinTokensGo (prevToken acc : String) : List String → String
  | [] => acc
  | token :: rest =>
    let acc' :=
      if containsList token.data ".,!?;:".data then acc ++ token
      else if token.data.head? == some (Char.ofNat 39) ||
          prevToken.data.getLast? == some (Char.ofNat 39) then acc ++ token
      else acc ++ " " ++ token
    joinTokensGo token acc' rest

def joinTokensToSentence (tokens : List String) : String :=
  match tokens with
  | [] => ""
  | t0 :: rest => joinTokensGo t0 t0 rest

/-- A row of the `learning_logs` table. -/
structure LearningLogRow where
  userId : ℕ
  qid : ℕ
  selectedChoice : String
  isCorrect : Bool
  generatedImagePath : Option String
  sessionId : String
deriving DecidableEq

/-- The slice of the persistence store touched by `process_user_answer`. -/
structure Store where
  sessions : List SessionRow
  learningLogs : List LearningLogRow
deriving DecidableEq

/-- `DatabaseManager.get_session_info`: SELECT by session id. -/
def getSessionInfo (st : Store) (sessionId : String) : Option SessionRow :=
  st.sessions.find? (fun s => s.sessionId == sessionId)

/-- `DatabaseManager.save_learning_log`: append-only INSERT. -/
def saveLearningLog (st : Store) (row : LearningLogRow) : Store :=
  { st with learningLogs := st.learningLogs ++ [row] }

/-- `DatabaseManager.update_session_progress` as an UPDATE on the store. -/
def updateSessionProgressStore (st : Store) (sessionId : String) : Store :=
  { st with
    sessions := st.sessions.map (fun s =>
      if s.sessionId == sessionId then updateSessionProgress s else s) }

/-- The feedback dict built by `_process_correct_answer` /
`_process_incorrect_answer`.  Keys present in only one of the two variants
are wrapped in `Option` (`none` models an absent key). -/
structure Feedback where
  resultType : String
  isCorrect : Bool
  message : String
  completedSentence : String
  originalCaption : String
  userAnswer : Option String
  correctAnswer : String
  showCorrectAnswer : Option Bool
  explanation : String
  imagePath : Option (Option String)
  generatedImagePath : Option String
  imageAvailable : Option Bool
  imageId : String
deriving DecidableEq

/-- `ResultProcessor._process_correct_answer`, lines 77-109. -/
def processCorrectAnswer (q : GenQuestion) : Feedback :=
  { resultType := "correct", isCorrect := true, message := "正解！",
    completedSentence := joinTokensToSentence (substituteBlanks q.blankquestion q.answer),
    originalCaption := q.caption, userAnswer := none, correctAnswer := q.answer,
    showCorrectAnswer := none,
    explanation := "正解は「" ++ q.answer ++ "」です。",
    imagePath := some none, generatedImagePath := none, imageAvailable := none,
    imageId := q.imageId }

/-- `ResultProcessor._process_incorrect_answer`, lines 111-156: the image
generator is invoked inside try/except, a raised exception leaves
`generated_image_path = None`; the feedback carries `show_correct_answer =
False` and `image_available = (generated_image_path is not None)`. -/
def processIncorrectAnswer (imgGen : Except Unit (Option String)) (q : GenQuestion)
    (userAnswer : String) : Feedback :=
  let generatedImagePath :=
    match imgGen with
    | Except.error _ => none
    | Except.ok p => p
  { resultType := "incorrect", isCorrect := false, message := "不正解",
    completedSentence := joinTokensToSentence (substituteBlanks q.blankquestion userAnswer),
    originalCaption := q.caption, userAnswer := some userAnswer,
    correctAnswer := q.answer, showCorrectAnswer := some false,
    explanation := "あなたの回答「" ++ userAnswer ++ "」での場面を画像で確認してください。",
    imagePath := none, generatedImagePath := generatedImagePath,
    imageAvailable := some generatedImagePath.isSome, imageId := q.imageId }

/-- `ResultProcessor.process_user_answer`, lines 26-75: correctness is the
trimmed case-insensitive comparison; an unknown session id raises ValueError
before any write; otherwise the feedback is built, a learning-log row is
appended and the session progress advanced. -/
def processUserAnswer (imgGen : Except Unit (Option String)) (st : Store)
    (sessionId : String) (qid : ℕ) (q : GenQuestion) (userAnswer : String) :
    Except String (Feedback × Store) :=
  let correctAnswer := q.answer
  let isCorrect := lowerStr (trimStr userAnswer) == lowerStr (trimStr correctAnswer)
  match getSessionInfo st sessionId with
  | none => Except.error ("Session not found: " ++ sessionId)
  | some sessionInfo =>
    let feedback :=
      if isCorrect then processCorrectAnswer q
      else processIncorrectAnswer imgGen q userAnswer
    let st₁ := saveLearningLog st
      { userId := sessionInfo.userId, qid := qid, selectedChoice := userAnswer,
        isCorrect := isCorrect, generatedImagePath := feedback.generatedImagePath,
        sessionId := sessionId }
    Except.ok (feedback, updateSessionProgressStore st₁ sessionId)

/-- The store left behind by `process_user_answer`: a raised exception rolls
the unit of work back to the caller with the store untouched. -/
def runProcessUserAnswer (imgGen : Except Unit (Option String)) (st : Store)
    (sessionId : String) (qid : ℕ) (q : GenQuestion) (userAnswer : String) : Store :=
  match processUserAnswer imgGen st sessionId qid q userAnswer with
  | Except.error _ => st
  | Except.ok p => p.2

/-- C7: for a wrong answer in a valid session, `process_user_answer` returns
(rather than raises) feedback with `is_correct = False` and
`show_correct_answer = False`; and when the image generator fails, the
feedback has a null `generated_image_path` and `image_available = False`
instead of the exception escaping. -/
theorem incorrect_answer_feedback (imgGen : Except Unit (Option String))
    (st : Store) (sessionId : String) (qid : ℕ) (q : GenQuestion)
    (userAnswer : String) (sess : SessionRow)
    (hs : getSessionInfo st sessionId = some sess)
    (hne : (lowerStr (trimStr userAnswer) == lowerStr (trimStr q.answer)) = false) :
    ∃ fb st₂, processUserAnswer imgGen st sessionId qid q userAnswer =
        Except.ok (fb, st₂) ∧
      fb.isCorrect = false ∧ fb.showCorrectAnswer = some false ∧
      (∀ e, imgGen = Except.error e →
        fb.generatedImagePath = none ∧ fb.imageAvailable = some false) := by
  have h : processUserAnswer imgGen st sessionId qid q userAnswer =
      Except.ok (processIncorrectAnswer imgGen q userAnswer,
        updateSessionProgressStore (saveLearningLog st
          { userId := sess.userId, qid := qid, selectedChoice := userAnswer,
            isCorrect := false,
            generatedImagePath :=
              (processIncorrectAnswer imgGen q userAnswer).generatedImagePath,
            sessionId := sessionId }) sessionId) := by
    simp [processUserAnswer, hs, hne]
  exact ⟨_, _, h, rfl, rfl, fun e he => by subst he; exact ⟨rfl, rfl⟩⟩

/-- The concrete store used by the C7 witness. -/
def witnessStore : Store :=
  { sessions := [witnessSession], learningLogs := [] }

/-- Witness for C7: answering "dog" against `simpleQ` (answer "cat") in a
valid session while the image generator raises. -/
theorem incorrect_answer_feedback_witness :
    ∃ fb st₂, processUserAnswer (Except.error ()) witnessStore "s1" 7 simpleQ
        "dog" = Except.ok (fb, st₂) ∧
      fb.isCorrect = false ∧ fb.showCorrectAnswer = some false ∧
      (∀ e, (Except.error () : Except Unit (Option String)) = Except.error e →
        fb.generatedImagePath = none ∧ fb.imageAvailable = some false) :=
  incorrect_answer_feedback (Except.error ()) witnessStore "s1" 7 simpleQ "dog"
    witnessSession (by decide) (by decide)

/-- C8: `process_user_answer` on an unknown session id fails with the
distinct "Session not found" error, and the store is left unchanged: no
learning-log row is appended and no session progress is advanced. -/
theorem unknown_session_rejected (imgGen : Except Unit (Option String))
    (st : Store) (sessionId : String) (qid : ℕ) (q : GenQuestion)
    (userAnswer : String)
    (hs : getSessionInfo st sessionId = none) :
    processUserAnswer imgGen st sessionId qid q userAnswer =
      Except.error ("Session not found: " ++ sessionId) ∧
    runProcessUserAnswer imgGen st sessionId qid q userAnswer = st := by
  have h : processUserAnswer imgGen st sessionId qid q userAnswer =
      Except.error ("Session not found: " ++ sessionId) := by
    simp only [processUserAnswer, hs]
  exact ⟨h, by simp only [runProcessUserAnswer, h]⟩

/-- An empty store used by the C8 witness. -/
def emptyStore : Store := { sessions := [], learningLogs := [] }

/-- Witness for C8: processing against an empty store fails distinctly and
changes nothing. -/
theorem unknown_session_rejected_witness :
    processUserAnswer (Except.ok none) emptyStore "missing" 7 simpleQ "dog" =
      Except.error ("Session not found: " ++ "missing") ∧
    runProcessUserAnswer (Except.ok none) emptyStore "missing" 7 simpleQ "dog" =
      emptyStore :=
  unknown_session_rejected (Except.ok none) emptyStore "missing" 7 simpleQ "dog" rfl

/-! ### Distractor selection
Embedding of `EnhancedCandidateGenerator` (`modules/enhanced_candidate_gen.py`).
Each call into Python's `random` module (`random.sample`, `random.shuffle`)
becomes a field of an oracle; a well-formed oracle returns genuine samples
(duplicate-free sub-selections of the population of the requested size) and
genuine shuffles (permutations). -/

/-- One row of the vocabulary CSV (`coco_cefr_vocab.csv`): the columns used
by the candidate generator. -/
structure VocabEntry where
  word : String
  pos : String
  cefr : String
deriving DecidableEq

/-- The outcomes of the `random`-module calls made during one
`get_or_generate_choices` invocation, one field per call site. -/
structure RandomOracle where
  sampleRandom : List String → ℕ → List String
  sampleRelaxed : String → List String → ℕ → List String
  samplePairs : List (String × ℚ) → ℕ → List (String × ℚ)
  sampleFallback : List String → ℕ → List String
  shuffleExisting : List String → List String
  shuffleNew : List String → List String
  shuffleFallback : List String → List String

/-- `out` is a possible value of `random.sample(l, n)` (for a duplicate-free
population, as at every call site): duplicate-free, drawn from `l`, of the
requested size. -/
def IsSampleOf {α : Type} (l out : List α) (n : ℕ) : Prop :=
  out.Nodup ∧ out ⊆ l ∧ out.length = min n l.length

/-- A well-formed oracle: every sample field behaves like `random.sample`
on duplicate-free populations, every shuffle field like `random.shuffle`. -/
structure RandomOracle.WF (o : RandomOracle) : Prop where
  sampleRandom_ok : ∀ l n, l.Nodup → IsSampleOf l (o.sampleRandom l n) n
  sampleRelaxed_ok : ∀ lv l n, l.Nodup → IsSampleOf l (o.sampleRelaxed lv l n) n
  samplePairs_ok : ∀ l n, l.Nodup → IsSampleOf l (o.samplePairs l n) n
  sampleFallback_ok : ∀ l n, l.Nodup → IsSampleOf l (o.sampleFallback l n) n
  shuffleExisting_perm : ∀ l, List.Perm (o.shuffleExisting l) l
  shuffleNew_perm : ∀ l, List.Perm (o.shuffleNew l) l
  shuffleFallback_perm : ∀ l, List.Perm (o.shuffleFallback l) l

/-- A concrete well-formed oracle: samples take the leading elements,
shuffles leave the order unchanged. -/
def takeOracle : RandomOracle :=
  { sampleRandom := fun l n => l.take n
    sampleRelaxed := fun _ l n => l.take n
    samplePairs := fun l n => l.take n
    sampleFallback := fun l n => l.take n
    shuffleExisting := id
    shuffleNew := id
    shuffleFallback := id }

theorem take_isSampleOf {α : Type} (l : List α) (n : ℕ) (h : l.Nodup) :
    IsSampleOf l (l.take n) n :=
  ⟨h.sublist (List.take_sublist n l), (List.take_sublist n l).subset,
    List.length_take n l⟩

theorem takeOracle_wf : takeOracle.WF :=
  ⟨fun l n h => take_isSampleOf l n h, fun _ l n h => take_isSampleOf l n h,
   fun l n h => take_isSampleOf l n h, fun l n h => take_isSampleOf l n h,
   fun l => List.Perm.refl l, fun l => List.Perm.refl l,
   fun l => List.Perm.refl l⟩

/-- `_get_similarity_candidates` (lines 177-214): same POS and CEFR, edit
distance within `[1, min(len)/2 + 2]`, sorted ascending by distance, top
`max_candidates` kept. -/
def similarityCandidates (vocab : List VocabEntry) (lemmaWord pos cefr : String)
    (maxCandidates : ℕ) : List String :=
  let filteredVocab := dedupFirst ((vocab.filter (fun e =>
    lowerStr e.pos == lowerStr pos && upperStr e.cefr == upperStr cefr &&
    lowerStr e.word != lowerStr lemmaWord)).map (fun e => e.word))
  if filteredVocab.isEmpty then []
  else
    let distances := (filteredVocab.map (fun w =>
      (w, levDist (lowerStr lemmaWord) (lowerStr w)))).filter (fun p =>
        decide (1 ≤ p.2) && decide (p.2 ≤ min lemmaWord.length p.1.length / 2 + 2))
    let sorted := stableSort (fun a b => decide (a.2 ≤ b.2)) distances
    (sorted.take maxCandidates).map (fun p => p.1)

/-- `_get_random_candidates` (lines 216-244): a `random.sample` of up to
`max_candidates` words from the same POS/CEFR pool. -/
def randomCandidates (o : RandomOracle) (vocab : List VocabEntry)
    (lemmaWord pos cefr : String) (maxCandidates : ℕ) : List String :=
  let filteredVocab := dedupFirst ((vocab.filter (fun e =>
    lowerStr e.pos == lowerStr pos && upperStr e.cefr == upperStr cefr &&
    lowerStr e.word != lowerStr lemmaWord)).map (fun e => e.word))
  if filteredVocab.isEmpty then []
  else o.sampleRandom filteredVocab (min maxCandidates filteredVocab.length)

def cefrLevels : List String := ["A1", "A2", "B1", "B2", "C1", "C2"]

/-- The adjacent-levels computation of `_get_relaxed_cefr_candidates` (lines
260-274); an unknown level raises ValueError inside `index`, caught to give
no adjacent levels. -/
def adjacentLevels (cefr : String) : List String :=
  match cefrLevels.indexOf? (upperStr cefr) with
  | none => []
  | some i =>
    (if 0 < i then [cefrLevels.getD (i - 1) ""] else []) ++
    (if i < cefrLevels.length - 1 then [cefrLevels.getD (i + 1) ""] else [])

/-- `_get_relaxed_cefr_candidates` (lines 246-289): for each adjacent CEFR
level, sample `max_candidates // len(adjacent_levels)` words from that
level's POS pool. -/
def relaxedCefrCandidates (o : RandomOracle) (vocab : List VocabEntry)
    (lemmaWord pos cefr : String) (maxCandidates : ℕ) : List String :=
  let adjacent := adjacentLevels cefr
  adjacent.foldl (fun acc adjCefr =>
    let candidates := dedupFirst ((vocab.filter (fun e =>
      lowerStr e.pos == lowerStr pos && upperStr e.cefr == adjCefr &&
      lowerStr e.word != lowerStr lemmaWord)).map (fun e => e.word))
    if candidates.isEmpty then acc
    else acc ++ o.sampleRelaxed adjCefr candidates
      (min (maxCandidates / adjacent.length) candidates.length)) []

/-- The deduplicated candidate pool of `_generate_new_choices` (lines
142-159): the three sources concatenated, `list(set(...))` (modelled in
first-occurrence order, the set's iteration order being unspecified), with
the correct answer removed case-insensitively. -/
def uniqueCandidatesFor (o : RandomOracle) (vocab : List VocabEntry)
    (lemmaWord pos cefr answer : String) : List String :=
  let candidates := similarityCandidates vocab lemmaWord pos cefr 10 ++
    randomCandidates o vocab lemmaWord pos cefr 15 ++
    relaxedCefrCandidates o vocab lemmaWord pos cefr 10
  (dedupFirst candidates).filter (fun c => lowerStr c != lowerStr answer)

/-- `_select_best_distractors` (lines 291-320): when more candidates than
requested, score them, sort descending (stable), keep the top
`2 * num_select`, and `random.sample` `num_select` of those.  The `getD 0`
is unreachable: the caller always passes a nonempty target (guarded in
`_generate_new_choices`), so the score is defined. -/
def selectBestDistractors (o : RandomOracle) (targetLemma : String)
    (candidates : List String) (numSelect : ℕ) : List String :=
  if candidates.length ≤ numSelect then candidates
  else
    let scoredCandidates := candidates.map (fun c =>
      (c, (calculateDistractorScore targetLemma c).getD 0))
    let sorted := stableSort (fun a b => decide (b.2 ≤ a.2)) scoredCandidates
    let topCandidates := sorted.take (numSelect * 2)
    (o.samplePairs topCandidates (min numSelect topCandidates.length)).map
      (fun p => p.1)

/-- `_get_fallback_distractors` (lines 363-386): POS-only pool (CEFR
ignored, and note: only the lemma is excluded, not the correct answer),
`random.sample` of up to 5. -/
def getFallbackDistractors (o : RandomOracle) (vocab : List VocabEntry)
    (lemmaWord pos : String) : List String :=
  let fallbackVocab := dedupFirst ((vocab.filter (fun e =>
    lowerStr e.pos == lowerStr pos &&
    lowerStr e.word != lowerStr lemmaWord)).map (fun e => e.word))
  if fallbackVocab.isEmpty then []
  else o.sampleFallback fallbackVocab (min 5 fallbackVocab.length)

/-- The `question_data` dict as read by the candidate generator: the four
fields accessed with `.get` (absent keys are `none`). -/
structure ChoiceQuestionData where
  lemmaWord : Option String
  pos : Option String
  cefr : Option String
  answer : Option String
deriving DecidableEq

/-- The `best_distractors` value of `_generate_new_choices` before the
padding step (line 162-164). -/
def bestDistractorsFor (o : RandomOracle) (vocab : List VocabEntry)
    (lem pos cefr answer : String) : List String :=
  selectBestDistractors o lem (uniqueCandidatesFor o vocab lem pos cefr answer) 2

/-- The `best_distractors` value after the padding step (lines 166-170):
when fewer than `num_distractors = 2` were found, the shortfall is filled
from the POS-only fallback pool. -/
def paddedDistractorsFor (o : RandomOracle) (vocab : List VocabEntry)
    (lem pos cefr answer : String) : List String :=
  let best := bestDistractorsFor o vocab lem pos cefr answer
  if best.length < 2 then
    best ++ (getFallbackDistractors o vocab lem pos).take (2 - best.length)
  else best

/-- `_generate_new_choices` (lines 123-175): `None` models the early
`return None` when a required field is falsy; otherwise the answer followed
by up to `num_distractors = 2` selected (possibly padded) distractors. -/
def generateNewChoices (o : RandomOracle) (vocab : List VocabEntry)
    (q : ChoiceQuestionData) : Option (List String) :=
  let pos := lowerStr (q.pos.getD "")
  let cefr := upperStr (q.cefr.getD "")
  if falsyStr q.lemmaWord || pos == "" || cefr == "" || falsyStr q.answer then none
  else
    some ((q.answer.getD "") ::
      (paddedDistractorsFor o vocab (q.lemmaWord.getD "") pos cefr
        (q.answer.getD "")).take 2)

/-- The fixed per-POS lists of `_generate_fallback_choices` (lines 402-409),
with the generic `fallback_dict.get(pos, ...)` default. -/
def fallbackDict (pos : String) : List String :=
  if pos == "noun" then ["thing", "person", "place", "time", "way"]
  else if pos == "verb" then ["go", "come", "make", "take", "get"]
  else if pos == "adjective" then ["good", "new", "big", "small", "old"]
  else if pos == "adverb" then ["well", "now", "here", "there", "very"]
  else ["option1", "option2"]

/-- `_generate_fallback_choices` (lines 388-418): the fixed-list final
fallback; the result is shuffled in place and NOT persisted or cached. -/
def generateFallbackChoices (o : RandomOracle) (q : ChoiceQuestionData) :
    List String :=
  let correctAnswer := q.answer.getD "unknown"
  let pos := lowerStr (q.pos.getD "")
  let distractors := ((fallbackDict pos).filter (fun c =>
    lowerStr c != lowerStr correctAnswer)).take 2
  o.shuffleFallback (correctAnswer :: distractors)

/-- A row of the `choices` table. -/
structure ChoiceRow where
  qid : ℕ
  choiceText : String
  isCorrect : Bool
  choiceOrder : ℕ
deriving DecidableEq

/-- The row INSERTed by `save_choices` for the `i`-th choice:
`choice_order = i` and `is_correct = (choice == correct_answer)`. -/
def mkChoiceRow (qid : ℕ) (correctAnswer : String) (p : ℕ × String) : ChoiceRow :=
  { qid := qid, choiceText := p.2, isCorrect := p.2 == correctAnswer,
    choiceOrder := p.1 }

/-- `DatabaseManager.save_choices` (`database/db_manager.py`, lines 323-345):
DELETE the qid's rows, then INSERT the new choices in order. -/
def saveChoices (table : List ChoiceRow) (qid : ℕ) (choices : List String)
    (correctAnswer : String) : List ChoiceRow :=
  table.filter (fun r => decide (r.qid ≠ qid)) ++
    choices.enum.map (mkChoiceRow qid correctAnswer)

/-- `DatabaseManager.get_choices_by_qid` (lines 347-364): SELECT the qid's
rows ORDER BY `choice_order`. -/
def getChoicesByQid (table : List ChoiceRow) (qid : ℕ) : List String :=
  (stableSort (fun a b => decide (a.choiceOrder ≤ b.choiceOrder))
    (table.filter (fun r => r.qid == qid))).map (fun r => r.choiceText)

/-- Lookup in the `_choices_cache` dict (key `"choices_" + qid`). -/
def cacheLookup (cache : List (ℕ × List String)) (qid : ℕ) :
    Option (List String) :=
  (cache.find? (fun p => p.1 == qid)).map (fun p => p.2)

/-- Assignment into the `_choices_cache` dict. -/
def cacheInsert (cache : List (ℕ × List String)) (qid : ℕ)
    (value : List String) : List (ℕ × List String) :=
  (qid, value) :: cache.filter (fun p => decide (p.1 ≠ qid))

/-- The mutable state read and written by `get_or_generate_choices`: the
in-memory `_choices_cache` and the `choices` table. -/
structure ChoiceGenState where
  choicesCache : List (ℕ × List String)
  choicesTable : List ChoiceRow
deriving DecidableEq

/-- `get_or_generate_choices` (lines 66-121): cache hit → cached list
verbatim; database hit with exactly 3 choices → shuffled copy, cached; new
generation → persisted pre-shuffle, shuffled copy returned and cached; final
fallback → shuffled fixed-list result, neither persisted nor cached. -/
def getOrGenerateChoices (o : RandomOracle) (vocab : List VocabEntry)
    (st : ChoiceGenState) (qid : ℕ) (q : ChoiceQuestionData)
    (forceRegenerate : Bool) : List String × ChoiceGenState :=
  if !forceRegenerate && (cacheLookup st.choicesCache qid).isSome then
    ((cacheLookup st.choicesCache qid).getD [], st)
  else
    let existingChoices := getChoicesByQid st.choicesTable qid
    if !forceRegenerate && !existingChoices.isEmpty &&
        existingChoices.length == 3 then
      let shuffledChoices := o.shuffleExisting existingChoices
      (shuffledChoices,
        { st with choicesCache := cacheInsert st.choicesCache qid shuffledChoices })
    else
      match generateNewChoices o vocab q with
      | some newChoices =>
        if newChoices.isEmpty then (generateFallbackChoices o q, st)
        else
          let table := saveChoices st.choicesTable qid newChoices (q.answer.getD "")
          let shuffledChoices := o.shuffleNew newChoices
          (shuffledChoices,
            { choicesCache := cacheInsert st.choicesCache qid shuffledChoices,
              choicesTable := table })
      | none => (generateFallbackChoices o q, st)

/-- `clear_cache` (lines 499-504). -/
def clearCache (st : ChoiceGenState) : ChoiceGenState :=
  { st with choicesCache := [] }

/-! ### Path lemmas for `get_or_generate_choices` -/

theorem getOrGenerate_cache_hit (o : RandomOracle) (vocab : List VocabEntry)
    (st : ChoiceGenState) (qid : ℕ) (q : ChoiceQuestionData) (r : List String)
    (h : cacheLookup st.choicesCache qid = some r) :
    getOrGenerateChoices o vocab st qid q false = (r, st) := by
  simp only [getOrGenerateChoices, h]
  rfl

theorem getOrGenerate_db_hit (o : RandomOracle) (vocab : List VocabEntry)
    (st : ChoiceGenState) (qid : ℕ) (q : ChoiceQuestionData)
    (hc : cacheLookup st.choicesCache qid = none)
    (hlen : (getChoicesByQid st.choicesTable qid).length = 3) :
    getOrGenerateChoices o vocab st qid q false =
      (o.shuffleExisting (getChoicesByQid st.choicesTable qid),
       { st with
         choicesCache := cacheInsert st.choicesCache qid
           (o.shuffleExisting (getChoicesByQid st.choicesTable qid)) }) := by
  have hempty : (getChoicesByQid st.choicesTable qid).isEmpty = false := by
    cases hx : getChoicesByQid st.choicesTable qid with
    | nil => rw [hx] at hlen; cases hlen
    | cons a t => rfl
  have hbeq : ((getChoicesByQid st.choicesTable qid).length == 3) = true := by
    rw [hlen]; decide
  simp only [getOrGenerateChoices, hc, Option.isSome_none, Bool.and_false,
    Bool.not_false, Bool.true_and, if_false, hempty, hbeq, Bool.and_true,
    if_true]
  simp

theorem getOrGenerate_new_path (o : RandomOracle) (vocab : List VocabEntry)
    (st : ChoiceGenState) (qid : ℕ) (q : ChoiceQuestionData) (nc : List String)
    (hc : cacheLookup st.choicesCache qid = none)
    (hlen : (getChoicesByQid st.choicesTable qid).length ≠ 3)
    (hg : generateNewChoices o vocab q = some nc) (hne : nc.isEmpty = false) :
    getOrGenerateChoices o vocab st qid q false =
      (o.shuffleNew nc,
       { choicesCache := cacheInsert st.choicesCache qid (o.shuffleNew nc),
         choicesTable := saveChoices st.choicesTable qid nc (q.answer.getD "") }) := by
  have hbeq : ((getChoicesByQid st.choicesTable qid).length == 3) = false :=
    beq_eq_false_iff_ne.mpr hlen
  simp only [getOrGenerateChoices, hc, Option.isSome_none, Bool.and_false,
    Bool.not_false, Bool.true_and, if_false, hbeq, hg, hne]
  simp

theorem getOrGenerate_fallback_path (o : RandomOracle) (vocab : List VocabEntry)
    (st : ChoiceGenState) (qid : ℕ) (q : ChoiceQuestionData)
    (hc : cacheLookup st.choicesCache qid = none)
    (hlen : (getChoicesByQid st.choicesTable qid).length ≠ 3)
    (hg : generateNewChoices o vocab q = none) :
    getOrGenerateChoices o vocab st qid q false =
      (generateFallbackChoices o q, st) := by
  have hbeq : ((getChoicesByQid st.choicesTable qid).length == 3) = false :=
    beq_eq_false_iff_ne.mpr hlen
  simp only [getOrGenerateChoices, hc, Option.isSome_none, Bool.and_false,
    Bool.not_false, Bool.true_and, if_false, hbeq, hg]
  simp

/-! ### Structure of newly generated choice lists -/

theorem generateNewChoices_elim {o : RandomOracle} {vocab : List VocabEntry}
    {q : ChoiceQuestionData} {nc : List String}
    (h : generateNewChoices o vocab q = some nc) :
    nc = (q.answer.getD "") ::
      (paddedDistractorsFor o vocab (q.lemmaWord.getD "") (lowerStr (q.pos.getD ""))
        (upperStr (q.cefr.getD "")) (q.answer.getD "")).take 2 := by
  simp only [generateNewChoices] at h
  split at h
  · cases h
  · exact (Option.some.inj h).symm

theorem uniqueCandidatesFor_nodup (o : RandomOracle) (vocab : List VocabEntry)
    (lem pos cefr answer : String) :
    (uniqueCandidatesFor o vocab lem pos cefr answer).Nodup :=
  List.Nodup.filter _ (dedupFirst_nodup _)

theorem uniqueCandidatesFor_ne_answer {o : RandomOracle} {vocab : List VocabEntry}
    {lem pos cefr answer c : String}
    (hc : c ∈ uniqueCandidatesFor o vocab lem pos cefr answer) : c ≠ answer := by
  simp only [uniqueCandidatesFor] at hc
  have hpred := List.of_mem_filter hc
  have : lowerStr c ≠ lowerStr answer := by
    simpa using hpred
  intro he
  exact this (by rw [he])

theorem selectBestDistractors_spec (o : RandomOracle) (ho : o.WF)
    (target : String) (candidates : List String) (h : candidates.Nodup) :
    (selectBestDistractors o target candidates 2).Nodup ∧
    (selectBestDistractors o target candidates 2) ⊆ candidates ∧
    (selectBestDistractors o target candidates 2).length = min candidates.length 2 := by
  unfold selectBestDistractors
  by_cases hle : candidates.length ≤ 2
  · rw [if_pos hle]
    exact ⟨h, fun x hx => hx, (Nat.min_eq_left hle).symm⟩
  · rw [if_neg hle]
    have hgt : 2 < candidates.length := Nat.lt_of_not_le hle
    set g := fun c => (c, (calculateDistractorScore target c).getD (0 : ℚ)) with hg
    set scored := candidates.map g with hscored
    have hmem_scored : ∀ p ∈ scored, p.1 ∈ candidates ∧ p = g p.1 := by
      intro p hp
      rcases List.mem_map.mp hp with ⟨c, hcmem, rfl⟩
      exact ⟨hcmem, rfl⟩
    have hscored_nodup : scored.Nodup :=
      List.Nodup.map_on (fun x _ y _ hxy => congrArg Prod.fst hxy) h
    set sorted := stableSort (fun a b => decide (b.2 ≤ a.2)) scored with hsorted
    have hsorted_nodup : sorted.Nodup := stableSort_nodup _ hscored_nodup
    have hsorted_len : sorted.length = candidates.length :=
      (stableSort_length _ scored).trans (List.length_map _ _)
    set top := sorted.take (2 * 2) with htop
    have htop_nodup : top.Nodup := hsorted_nodup.sublist (List.take_sublist _ _)
    have htop_sub_scored : ∀ p ∈ top, p ∈ scored := by
      intro p hp
      exact (mem_stableSort _).mp ((List.take_sublist _ _).subset hp)
    have htop_len : top.length = min 4 candidates.length := by
      rw [htop, List.length_take, hsorted_len]
    have h2top : 2 ≤ top.length := by
      rw [htop_len]
      exact le_min (by norm_num) (Nat.le_of_lt hgt)
    obtain ⟨hs_nodup, hs_sub, hs_len⟩ :=
      ho.samplePairs_ok top (min 2 top.length) htop_nodup
    constructor
    · refine List.Nodup.map_on ?_ hs_nodup
      intro x hx y hy hxy
      have hx' := (hmem_scored x (htop_sub_scored x (hs_sub hx))).2
      have hy' := (hmem_scored y (htop_sub_scored y (hs_sub hy))).2
      rw [hx', hy', hxy]
    constructor
    · intro x hx
      rcases List.mem_map.mp hx with ⟨p, hp, rfl⟩
      exact (hmem_scored p (htop_sub_scored p (hs_sub hp))).1
    · rw [List.length_map, hs_len]
      have hmin : min 2 top.length = 2 := Nat.min_eq_left h2top
      rw [hmin, Nat.min_eq_left h2top, Nat.min_eq_right (Nat.le_of_lt hgt)]

theorem bestDistractorsFor_spec (o : RandomOracle) (ho : o.WF)
    (vocab : List VocabEntry) (lem pos cefr answer : String) :
    (bestDistractorsFor o vocab lem pos cefr answer).Nodup ∧
    (bestDistractorsFor o vocab lem pos cefr answer) ⊆
      uniqueCandidatesFor o vocab lem pos cefr answer ∧
    (bestDistractorsFor o vocab lem pos cefr answer).length =
      min (uniqueCandidatesFor o vocab lem pos cefr answer).length 2 :=
  selectBestDistractors_spec o ho lem _ (uniqueCandidatesFor_nodup o vocab lem pos cefr answer)

/-- C1 counterexample data: a vocabulary with no word sharing the
question's part of speech, so no distractor can be found anywhere. -/
def poorVocab : List VocabEntry := [⟨"run", "verb", "A1"⟩]

/-- The question data used in the C1 and C9 theorems and witnesses. -/
def catQuestionData : ChoiceQuestionData :=
  ⟨some "cat", some "noun", some "A1", some "cat"⟩

def emptyChoiceState : ChoiceGenState := ⟨[], []⟩

/-- C1 counterexample: with a vocabulary holding no other noun, the
new-generation path returns the one-element list `["cat"]` (and persists
it), not a three-element choice set. -/
theorem choice_set_size_counterexample :
    (getOrGenerateChoices takeOracle poorVocab emptyChoiceState 1 catQuestionData
      false).1 = ["cat"] ∧
    ((getOrGenerateChoices takeOracle poorVocab emptyChoiceState 1 catQuestionData
      false).1).length ≠ 3 := by
  constructor
  · decide
  · decide

/-- C1 (amended): the database-reuse path always returns exactly 3 choices;
the new-generation path returns the correct answer first followed by at most
2 distractors, and - provided the deduplicated candidate pool (which excludes
the answer case-insensitively) still holds at least 2 words - the result has
exactly 3 pairwise-distinct entries of which exactly one equals the answer
case-sensitively.  When the pool is smaller the result can have fewer than 3
entries (see the counterexample). -/
theorem choice_set_size_and_uniqueness (o : RandomOracle) (ho : o.WF) :
    (∀ (vocab : List VocabEntry) (st : ChoiceGenState) (qid : ℕ)
      (q : ChoiceQuestionData),
      cacheLookup st.choicesCache qid = none →
      (getChoicesByQid st.choicesTable qid).length = 3 →
      ((getOrGenerateChoices o vocab st qid q false).1).length = 3) ∧
    (∀ (vocab : List VocabEntry) (q : ChoiceQuestionData) (nc : List String),
      generateNewChoices o vocab q = some nc →
      nc.head? = some (q.answer.getD "") ∧ nc.length ≤ 3 ∧
      (2 ≤ (uniqueCandidatesFor o vocab (q.lemmaWord.getD "")
          (lowerStr (q.pos.getD "")) (upperStr (q.cefr.getD ""))
          (q.answer.getD "")).length →
        nc.length = 3 ∧ nc.Nodup ∧ nc.count (q.answer.getD "") = 1)) := by
  constructor
  · intro vocab st qid q hc hlen
    rw [getOrGenerate_db_hit o vocab st qid q hc hlen]
    exact (ho.shuffleExisting_perm _).length_eq.trans hlen
  · intro vocab q nc h
    have hshape := generateNewChoices_elim h
    obtain ⟨hbn, hbs, hbl⟩ := bestDistractorsFor_spec o ho vocab (q.lemmaWord.getD "")
      (lowerStr (q.pos.getD "")) (upperStr (q.cefr.getD "")) (q.answer.getD "")
    refine ⟨by rw [hshape]; rfl, ?_, ?_⟩
    · rw [hshape]
      simp only [List.length_cons, List.length_take]
      omega
    · intro hpool
      have hbl2 : (bestDistractorsFor o vocab (q.lemmaWord.getD "")
          (lowerStr (q.pos.getD "")) (upperStr (q.cefr.getD ""))
          (q.answer.getD "")).length = 2 := by
        rw [hbl]
        exact Nat.min_eq_right hpool
      have hpad : paddedDistractorsFor o vocab (q.lemmaWord.getD "")
          (lowerStr (q.pos.getD "")) (upperStr (q.cefr.getD ""))
          (q.answer.getD "") = bestDistractorsFor o vocab (q.lemmaWord.getD "")
          (lowerStr (q.pos.getD "")) (upperStr (q.cefr.getD ""))
          (q.answer.getD "") := by
        unfold paddedDistractorsFor
        rw [if_neg]
        rw [hbl2]
        omega
      have htake : (paddedDistractorsFor o vocab (q.lemmaWord.getD "")
          (lowerStr (q.pos.getD "")) (upperStr (q.cefr.getD ""))
          (q.answer.getD "")).take 2 = bestDistractorsFor o vocab
          (q.lemmaWord.getD "") (lowerStr (q.pos.getD ""))
          (upperStr (q.cefr.getD "")) (q.answer.getD "") := by
        rw [hpad]
        exact List.take_of_length_le (le_of_eq hbl2)
      rw [hshape, htake]
      have hnotmem : (q.answer.getD "") ∉ bestDistractorsFor o vocab
          (q.lemmaWord.getD "") (lowerStr (q.pos.getD ""))
          (upperStr (q.cefr.getD "")) (q.answer.getD "") := by
        intro hmem
        exact uniqueCandidatesFor_ne_answer (hbs hmem) rfl
      refine ⟨by simp [hbl2], List.nodup_cons.mpr ⟨hnotmem, hbn⟩, ?_⟩
      rw [List.count_cons, List.count_eq_zero.mpr hnotmem]
      simp

/-- The vocabulary used by the C1 witness: exactly two other nouns. -/
def catVocab : List VocabEntry :=
  [⟨"dog", "noun", "A1"⟩, ⟨"cow", "noun", "A1"⟩, ⟨"cat", "noun", "A1"⟩]

/-- The choices table holding a stored 3-choice set for qid 1. -/
def dbChoiceState : ChoiceGenState :=
  ⟨[], saveChoices [] 1 ["cat", "dog", "cow"] "cat"⟩

/-- Witness for C1 (amended): a database hit returns 3 choices, and a
generation over `catVocab` (candidate pool ["cow", "dog"], so of size 2)
returns the 3 distinct choices `["cat", "cow", "dog"]` containing the
answer exactly once. -/
theorem choice_set_size_and_uniqueness_witness :
    ((getOrGenerateChoices takeOracle [] dbChoiceState 1 catQuestionData false).1).length = 3 ∧
    ((["cat", "cow", "dog"] : List String).length = 3 ∧
      (["cat", "cow", "dog"] : List String).Nodup ∧
      (["cat", "cow", "dog"] : List String).count "cat" = 1) :=
  ⟨(choice_set_size_and_uniqueness takeOracle takeOracle_wf).1 [] dbChoiceState 1
      catQuestionData (by decide) (by decide),
   ((choice_set_size_and_uniqueness takeOracle takeOracle_wf).2 catVocab
      catQuestionData ["cat", "cow", "dog"] (by decide)).2.2 (by decide)⟩

/-! ### Stored choice order and the in-memory cache -/

theorem le_fst_of_mem_enumFrom {α : Type} {p : ℕ × α} :
    ∀ {n : ℕ} {l : List α}, p ∈ List.enumFrom n l → n ≤ p.1 := by
  intro n l
  induction l generalizing n with
  | nil => intro h; cases h
  | cons a t ih =>
    intro h
    rw [List.enumFrom_cons] at h
    rcases List.mem_cons.mp h with rfl | h
    · exact le_refl n
    · exact le_trans (Nat.le_succ n) (ih h)

theorem enumFrom_pairwise_fst_le {α : Type} :
    ∀ (n : ℕ) (l : List α), (List.enumFrom n l).Pairwise (fun a b => a.1 ≤ b.1) := by
  intro n l
  induction l generalizing n with
  | nil => simp
  | cons a t ih =>
    rw [List.enumFrom_cons]
    refine List.pairwise_cons.mpr ⟨?_, ih (n + 1)⟩
    intro p hp
    exact le_trans (Nat.le_succ n) (le_fst_of_mem_enumFrom hp)

theorem enumFrom_map_snd {α : Type} :
    ∀ (n : ℕ) (l : List α), (List.enumFrom n l).map Prod.snd = l := by
  intro n l
  induction l generalizing n with
  | nil => rfl
  | cons a t ih =>
    rw [List.enumFrom_cons]
    simp only [List.map_cons]
    rw [ih (n + 1)]

/-- Round trip: `get_choices_by_qid` after `save_choices` returns exactly
the saved list in its stored order (old rows for the qid are deleted, new
rows are returned sorted by `choice_order`). -/
theorem getChoices_saveChoices (table : List ChoiceRow) (qid : ℕ)
    (choices : List String) (correctAnswer : String) :
    getChoicesByQid (saveChoices table qid choices correctAnswer) qid = choices := by
  unfold getChoicesByQid saveChoices
  rw [List.filter_append]
  have h1 : List.filter (fun r => r.qid == qid)
      (table.filter (fun r => decide (r.qid ≠ qid))) = [] := by
    rw [List.filter_eq_nil_iff]
    intro r hr
    have hne := List.of_mem_filter hr
    simp only [decide_eq_true_eq] at hne
    simp [hne]
  have h2 : List.filter (fun r => r.qid == qid)
      (choices.enum.map (mkChoiceRow qid correctAnswer)) =
      choices.enum.map (mkChoiceRow qid correctAnswer) := by
    rw [List.filter_eq_self]
    intro r hr
    rcases List.mem_map.mp hr with ⟨p, hp, rfl⟩
    simp [mkChoiceRow]
  rw [h1, h2, List.nil_append]
  have hpw : (choices.enum.map (mkChoiceRow qid correctAnswer)).Pairwise
      (fun a b => (decide (a.choiceOrder ≤ b.choiceOrder)) = true) := by
    refine List.Pairwise.map _ ?_ (enumFrom_pairwise_fst_le 0 choices)
    intro a b hab
    exact decide_eq_true hab
  rw [stableSort_eq_self _ _ hpw, List.map_map]
  exact enumFrom_map_snd 0 choices

/-- C9: `save_choices` deletes the qid's prior rows before inserting, so the
read-back after any save is exactly the last-saved list in stored order; on
the new-generation path the persisted list is the unshuffled
answer-first list, and only the copy returned to the caller is shuffled
(a permutation of the stored list). -/
theorem choices_persisted_answer_first (o : RandomOracle) (ho : o.WF) :
    (∀ (table : List ChoiceRow) (qid : ℕ) (l : List String) (ans : String),
      getChoicesByQid (saveChoices table qid l ans) qid = l) ∧
    (∀ (vocab : List VocabEntry) (st : ChoiceGenState) (qid : ℕ)
      (q : ChoiceQuestionData) (nc : List String),
      cacheLookup st.choicesCache qid = none →
      (getChoicesByQid st.choicesTable qid).length ≠ 3 →
      generateNewChoices o vocab q = some nc →
      nc.head? = some (q.answer.getD "") ∧
      getChoicesByQid ((getOrGenerateChoices o vocab st qid q false).2).choicesTable
        qid = nc ∧
      List.Perm ((getOrGenerateChoices o vocab st qid q false).1) nc) := by
  constructor
  · exact getChoices_saveChoices
  · intro vocab st qid q nc hc hlen hg
    have hshape := generateNewChoices_elim hg
    have hne : nc.isEmpty = false := by rw [hshape]; rfl
    rw [getOrGenerate_new_path o vocab st qid q nc hc hlen hg hne]
    exact ⟨by rw [hshape]; rfl,
      getChoices_saveChoices st.choicesTable qid nc (q.answer.getD ""),
      ho.shuffleNew_perm nc⟩

/-- Witness for C9 at `catVocab`: the generated set `["cat", "cow", "dog"]`
is stored answer-first, read back verbatim, and the returned copy is a
permutation of it. -/
theorem choices_persisted_answer_first_witness :
    (["cat", "cow", "dog"] : List String).head? =
      some (catQuestionData.answer.getD "") ∧
    getChoicesByQid ((getOrGenerateChoices takeOracle catVocab emptyChoiceState 1
      catQuestionData false).2).choicesTable 1 = ["cat", "cow", "dog"] ∧
    List.Perm ((getOrGenerateChoices takeOracle catVocab emptyChoiceState 1
      catQuestionData false).1) ["cat", "cow", "dog"] :=
  (choices_persisted_answer_first takeOracle takeOracle_wf).2 catVocab
    emptyChoiceState 1 catQuestionData ["cat", "cow", "dog"]
    (by decide) (by decide) (by decide)

theorem cacheLookup_cacheInsert (cache : List (ℕ × List String)) (qid : ℕ)
    (value : List String) :
    cacheLookup (cacheInsert cache qid value) qid = some value := by
  simp [cacheLookup, cacheInsert, List.find?_cons_of_pos]

/-- C10 counterexample data: the pos key is absent, so
`_generate_new_choices` returns `None` and the fixed-list fallback runs. -/
def fallbackQuestionData : ChoiceQuestionData :=
  ⟨some "cat", none, some "A1", some "cat"⟩

/-- An oracle differing from `takeOracle` only in the in-place shuffle of
the fallback list (a later state of the same RNG). -/
def revOracle : RandomOracle :=
  { takeOracle with shuffleFallback := List.reverse }

theorem revOracle_wf : revOracle.WF :=
  ⟨fun l n h => take_isSampleOf l n h, fun _ l n h => take_isSampleOf l n h,
   fun l n h => take_isSampleOf l n h, fun l n h => take_isSampleOf l n h,
   fun l => List.Perm.refl l, fun l => List.Perm.refl l,
   fun l => List.reverse_perm l⟩

/-- C10 counterexample: the fixed-list fallback path caches nothing (the
state is returned unchanged), so a subsequent call re-runs the fallback and
re-shuffles: with the RNG first leaving the order unchanged and then
reversing it, the two calls return different orders. -/
theorem choices_cache_counterexample :
    (getOrGenerateChoices takeOracle [] emptyChoiceState 1 fallbackQuestionData
      false).1 = ["cat", "option1", "option2"] ∧
    (getOrGenerateChoices takeOracle [] emptyChoiceState 1 fallbackQuestionData
      false).2 = emptyChoiceState ∧
    (getOrGenerateChoices revOracle [] emptyChoiceState 1 fallbackQuestionData
      false).1 = ["option2", "option1", "cat"] ∧
    (["cat", "option1", "option2"] : List String) ≠
      ["option2", "option1", "cat"] := by
  refine ⟨by decide, by decide, by decide, by decide⟩

/-- C10 (amended): a cache hit returns the cached list verbatim with the
state unchanged; every path except the fixed-list fallback stores the
returned (shuffled) list in the cache; consequently, once a call has cached
its result, every subsequent call with `force_regenerate` false returns the
identical list in the identical order and leaves the state fixed. -/
theorem cached_choices_returned_verbatim :
    (∀ (o : RandomOracle) (vocab : List VocabEntry) (st : ChoiceGenState)
      (qid : ℕ) (q : ChoiceQuestionData) (r : List String),
      cacheLookup st.choicesCache qid = some r →
      getOrGenerateChoices o vocab st qid q false = (r, st)) ∧
    (∀ (o : RandomOracle) (vocab : List VocabEntry) (st : ChoiceGenState)
      (qid : ℕ) (q : ChoiceQuestionData),
      cacheLookup st.choicesCache qid = none →
      ((getChoicesByQid st.choicesTable qid).length = 3 ∨
        (generateNewChoices o vocab q).isSome = true) →
      cacheLookup ((getOrGenerateChoices o vocab st qid q false).2).choicesCache
        qid = some ((getOrGenerateChoices o vocab st qid q false).1)) ∧
    (∀ (o o₂ : RandomOracle) (vocab : List VocabEntry) (st : ChoiceGenState)
      (qid : ℕ) (q : ChoiceQuestionData),
      cacheLookup ((getOrGenerateChoices o vocab st qid q false).2).choicesCache
        qid = some ((getOrGenerateChoices o vocab st qid q false).1) →
      getOrGenerateChoices o₂ vocab ((getOrGenerateChoices o vocab st qid q
        false).2) qid q false = ((getOrGenerateChoices o vocab st qid q false).1,
          (getOrGenerateChoices o vocab st qid q false).2)) := by
  refine ⟨?_, ?_, ?_⟩
  · intro o vocab st qid q r h
    exact getOrGenerate_cache_hit o vocab st qid q r h
  · intro o vocab st qid q hc hcase
    by_cases hlen : (getChoicesByQid st.choicesTable qid).length = 3
    · rw [getOrGenerate_db_hit o vocab st qid q hc hlen]
      exact cacheLookup_cacheInsert _ _ _
    · rcases hcase with hlen3 | hsome
      · exact absurd hlen3 hlen
      · rcases Option.isSome_iff_exists.mp hsome with ⟨nc, hg⟩
        have hshape := generateNewChoices_elim hg
        have hne : nc.isEmpty = false := by rw [hshape]; rfl
        rw [getOrGenerate_new_path o vocab st qid q nc hc hlen hg hne]
        exact cacheLookup_cacheInsert _ _ _
  · intro o o₂ vocab st qid q h
    exact getOrGenerate_cache_hit o₂ vocab _ qid q _ h

/-- A state whose cache already holds a choice list for qid 1. -/
def cachedState : ChoiceGenState := ⟨[(1, ["dog", "cat", "cow"])], []⟩

/-- Witness for C10 (amended): a cache hit returns the cached order
verbatim, and a non-fallback generation stores its returned list in the
cache. -/
theorem cached_choices_returned_verbatim_witness :
    getOrGenerateChoices takeOracle [] cachedState 1 catQuestionData false =
      (["dog", "cat", "cow"], cachedState) ∧
    cacheLookup ((getOrGenerateChoices takeOracle catVocab emptyChoiceState 1
      catQuestionData false).2).choicesCache 1 =
      some ((getOrGenerateChoices takeOracle catVocab emptyChoiceState 1
        catQuestionData false).1) :=
  ⟨cached_choices_returned_verbatim.1 takeOracle [] cachedState 1 catQuestionData
      ["dog", "cat", "cow"] (by decide),
   cached_choices_returned_verbatim.2.1 takeOracle catVocab emptyChoiceState 1
      catQuestionData (by decide) (Or.inr (by decide))⟩

end LVeige
